import Mathlib

/-!
Shallow embedding of the desktop file organizer (`desktop_organizer.py`) and
proofs about its specification.

Modelling conventions:
* Python strings are Lean `String`s; character-level operations work on `String.data`.
* `str.lower()` is modelled as ASCII case folding (`Char.toLower`); every extension in
  the category table is ASCII, so this agrees with Python on all inputs relevant here.
* Python exceptions are the inductive `PyExc`; an operation that may raise returns
  `Except PyExc _`.  `FileNotFoundError` and `FileExistsError` are subclasses of
  `OSError` in Python; the `except` dispatch below encodes that.
* Filesystem effects that depend on the outside world (whether `shutil.move` or
  `mkdir` fails with a permission error, which entries a directory contains) are
  supplied as explicit parameters/oracles; everything the source computes from those
  inputs is modelled faithfully.
-/

/-- Python exception values (all derived from `Exception`).
`fileNotFoundError` and `fileExistsError` are `OSError` subclasses. -/
inductive PyExc where
  | permissionError (msg : String)
  | fileNotFoundError (msg : String)
  | fileExistsError (msg : String)
  | osError (msg : String)
  | otherError (msg : String)
deriving DecidableEq, Repr

/-- Index of the last occurrence of `c` in `l` (Python `str.rfind`, with `none`
playing the role of `-1`). -/
def rfindIdx : List Char → Char → Option Nat
  | [], _ => none
  | x :: xs, c =>
    match rfindIdx xs c with
    | some i => some (i + 1)
    | none => if x = c then some 0 else none

/-- CPython `PurePath.suffix`: `name[i:]` where `i = name.rfind('.')`, provided
`0 < i < len(name) - 1`; otherwise the empty string. -/
def pySuffix (name : String) : String :=
  match rfindIdx name.data '.' with
  | some i => if 0 < i ∧ i < name.data.length - 1 then ⟨name.data.drop i⟩ else ""
  | none => ""

/-- CPython `PurePath.stem`: `name[:i]` under the same condition as `pySuffix`,
otherwise the whole name. -/
def pyStem (name : String) : String :=
  match rfindIdx name.data '.' with
  | some i => if 0 < i ∧ i < name.data.length - 1 then ⟨name.data.take i⟩ else name
  | none => name

/-- Python `str.lower()` (ASCII case folding; see module conventions). -/
def pyLower (s : String) : String :=
  ⟨s.data.map Char.toLower⟩

namespace FileCategorizer

/-- The `FileCategorizer.CATEGORIES` table, in source declaration order
(Python dicts iterate in insertion order). -/
def CATEGORIES : List (String × List String) :=
  [ ("Images", [".jpg", ".jpeg", ".png", ".gif", ".bmp", ".svg", ".ico"])
  , ("Documents", [".pdf", ".doc", ".docx", ".txt", ".xlsx", ".pptx", ".odt"])
  , ("Videos", [".mp4", ".avi", ".mkv", ".mov", ".wmv", ".flv"])
  , ("Music", [".mp3", ".wav", ".flac", ".aac", ".ogg", ".wma"])
  , ("Archives", [".zip", ".rar", ".7z", ".tar", ".gz"])
  , ("Code", [".py", ".js", ".html", ".css", ".java", ".cpp", ".c", ".ts", ".json"])
  ]

/-- The `for category, extensions in CATEGORIES` loop body of `categorize_file`:
return the first category whose extension list contains `e`, else `Miscellaneous`. -/
def findCategory : List (String × List String) → String → String
  | [], _ => "Miscellaneous"
  | (category, extensions) :: rest, e =>
    if e ∈ extensions then category else findCategory rest e

/-- `FileCategorizer.categorize_file` applied to the file's base name:
`extension = file_path.suffix.lower()`, empty extension gives `Miscellaneous`,
otherwise the first matching category, else `Miscellaneous`. -/
def categorize_file (name : String) : String :=
  let extension := pyLower (pySuffix name)
  if extension = "" then "Miscellaneous"
  else findCategory CATEGORIES extension

end FileCategorizer

/-- Modelled from the spec: "first category whose extension set contains it wins
(ties broken by the table's fixed iteration order)". -/
def specFirstCategory (e : String) : String :=
  match FileCategorizer.CATEGORIES.find? (fun p => decide (e ∈ p.2)) with
  | some p => p.1
  | none => "Miscellaneous"

/-- Modelled from the claim's wording of C1: the extension is the substring from
the last `.` in the base name onward, lowercased, empty only when no `.` exists
or no characters follow it. -/
def claimExtension (name : String) : String :=
  match rfindIdx name.data '.' with
  | some i => if i < name.data.length - 1 then pyLower ⟨name.data.drop i⟩ else ""
  | none => ""

/-- Categorization as claim C1 words it, built on `claimExtension`. -/
def claimCategorize (name : String) : String :=
  let e := claimExtension name
  if e = "" then "Miscellaneous" else specFirstCategory e

namespace FileScanner

/-- `FileScanner.scan_files`.  `exists_` models `self.desktop_path.exists()`;
`iterdir` models the `iterdir()` call, which either raises (e.g. a
`PermissionError` if the directory cannot be listed) or yields the entries as
`(name, is_file)` pairs.  Only regular files are kept. -/
def scan_files (exists_ : Bool) (iterdir : Except PyExc (List (String × Bool))) :
    Except PyExc (List String) :=
  if exists_ then
    match iterdir with
    | .error e => .error e
    | .ok items => .ok ((items.filter (·.2)).map (·.1))
  else
    .error (.fileNotFoundError "Desktop path does not exist")

end FileScanner

/-- State of one path on disk: absent, a non-directory entry, or a directory. -/
inductive PathState where
  | absent
  | file
  | dir
deriving DecidableEq, Repr

namespace FolderManager

/-- `FolderManager.create_category_folder`: `folder_path.mkdir(exist_ok=True)`.
`fs` is the point-in-time state of every path.  With `exist_ok=True`, `mkdir`
succeeds silently when the path is already a directory, raises
`FileExistsError` when it exists as a non-directory, and otherwise creates the
directory.  Returns the folder path together with the updated path states. -/
def create_category_folder (fs : String → PathState) (base category : String) :
    Except PyExc (String × (String → PathState)) :=
  let folder_path := base ++ "/" ++ category
  match fs folder_path with
  | .dir => .ok (folder_path, fs)
  | .file => .error (.fileExistsError folder_path)
  | .absent => .ok (folder_path, fun q => if q = folder_path then .dir else fs q)

end FolderManager

namespace FileMover

/-- One candidate name of the `_resolve_name_conflict` loop:
`f"{stem}_{counter}{suffix}"`. -/
def candidateName (stem suffix : String) (counter : Nat) : String :=
  stem ++ "_" ++ Nat.repr counter ++ suffix

/-- The `while True` loop body of `_resolve_name_conflict`: starting at
`counter`, return the first candidate name not present in `occupied` (the names
already in the destination folder).  The loop has no bound in the source; the
`fuel` argument makes it structural, and `resolve_some` below proves that the
fuel chosen in `resolve_name_conflict` always suffices. -/
def resolveAux (occupied : List String) (stem suffix : String) :
    Nat → Nat → Option String
  | 0, _ => none
  | fuel + 1, counter =>
    let new_name := candidateName stem suffix counter
    if new_name ∈ occupied then resolveAux occupied stem suffix fuel (counter + 1)
    else some new_name

/-- `FileMover._resolve_name_conflict`, acting on the base name of the
destination and the list of names already present in its folder. -/
def resolve_name_conflict (occupied : List String) (destName : String) : Option String :=
  resolveAux occupied (pyStem destName) (pySuffix destName) (occupied.length + 1) 1

/-- Python error-message formatting of the three `except` clauses of
`move_file` (`FileNotFoundError`/`FileExistsError` are `OSError` subclasses). -/
def moveErrorMessage : PyExc → String
  | .permissionError m => "Permission denied: " ++ m
  | .fileNotFoundError m => "OS error: " ++ m
  | .fileExistsError m => "OS error: " ++ m
  | .osError m => "OS error: " ++ m
  | .otherError m => "Unexpected error: " ++ m

/-- `FileMover.move_file`: compute the destination name (resolving conflicts
against `occupied`, the names already in the destination folder) and perform
`shutil.move`, whose environment-dependent outcome is the oracle `exc`
(`none` = the move succeeds, `some e` = it raises `e`).  Every exception is
caught and returned as `(False, message)`; the `none` branch of the conflict
loop is unreachable (`resolve_some`). -/
def move_file (occupied : List String) (sourceName : String) (exc : Option PyExc) :
    Bool × Option String :=
  let destination : Option String :=
    if sourceName ∈ occupied then resolve_name_conflict occupied sourceName
    else some sourceName
  match destination with
  | none => (false, some "Unexpected error: conflict resolution did not terminate")
  | some _ =>
    match exc with
    | none => (true, none)
    | some e => (false, some (moveErrorMessage e))

end FileMover

/-- `OrganizationStats` (the wall-clock `duration` field is real time and is
not modelled). -/
structure OrganizationStats where
  total_files : Nat
  files_moved : Nat
  files_failed : Nat
  category_counts : List (String × Nat)
deriving DecidableEq, Repr

/-- `category_counts[category] = category_counts.get(category, 0) + 1` on a
Python dict, modelled as an insertion-ordered association list (new keys are
appended, matching dict insertion order). -/
def dictIncr : List (String × Nat) → String → List (String × Nat)
  | [], category => [(category, 1)]
  | (k, v) :: rest, category =>
    if k = category then (k, v + 1) :: rest
    else (k, v) :: dictIncr rest category

/-- Sum of the values of `category_counts`. -/
def sumValues (counts : List (String × Nat)) : Nat :=
  (counts.map (·.2)).sum

/-- Everything the per-file loop of `DesktopOrganizer.organize` observes about
one scanned file: its base name, the outcome of `create_category_folder` for
its category (which may raise), and the `(success, error)` pair returned by
`move_file` (consulted only when folder creation succeeded). -/
structure FileJob where
  name : String
  folderOutcome : Except PyExc String
  moveOutcome : Bool × Option String
deriving Repr

namespace DesktopOrganizer

/-- The body of the `for file_path in files` loop of `organize`: categorize,
create the category folder (any raised `PyExc` is caught by the
`except PermissionError / OSError / Exception` clauses and counted as a
failure), then move; a `(True, _)` move increments `files_moved` and the
category's count, a `(False, _)` move increments `files_failed`. -/
def processFile (stats : OrganizationStats) (job : FileJob) : OrganizationStats :=
  let category := FileCategorizer.categorize_file job.name
  match job.folderOutcome with
  | .error _ => { stats with files_failed := stats.files_failed + 1 }
  | .ok _ =>
    match job.moveOutcome with
    | (true, _) =>
      { stats with
          files_moved := stats.files_moved + 1
          category_counts := dictIncr stats.category_counts category }
    | (false, _) => { stats with files_failed := stats.files_failed + 1 }

/-- The statistics accumulated by the per-file loop over the scanned files. -/
def orgStats (jobs : List FileJob) : OrganizationStats :=
  jobs.foldl processFile
    { total_files := jobs.length, files_moved := 0, files_failed := 0, category_counts := [] }

/-- `DesktopOrganizer.organize`: scan (a scan-time exception propagates out of
`organize`, there is no surrounding `try`), then run the per-file loop; `env`
gives each scanned file's folder-creation and move outcomes. -/
def organize (exists_ : Bool) (iterdir : Except PyExc (List (String × Bool)))
    (env : String → Except PyExc String × (Bool × Option String)) :
    Except PyExc OrganizationStats :=
  match FileScanner.scan_files exists_ iterdir with
  | .error e => .error e
  | .ok files =>
    .ok (orgStats (files.map fun n =>
      { name := n, folderOutcome := (env n).1, moveOutcome := (env n).2 }))

/-- Whether a job ends in the moved branch of the loop (folder created and
move reported success); otherwise it ends in the failed branch. -/
def jobMoved (job : FileJob) : Bool :=
  match job.folderOutcome with
  | .ok _ => job.moveOutcome.1
  | .error _ => false

end DesktopOrganizer

/-- Sample environment for witnesses: folder creation succeeds and every move
reports success. -/
def envAllOk : String → Except PyExc String × (Bool × Option String) :=
  fun _ => (.ok "Desktop/Documents", (true, none))

/-- Stats of the one-file sample run used by witnesses. -/
def sampleStats : OrganizationStats :=
  { total_files := 1, files_moved := 1, files_failed := 0
  , category_counts := [("Documents", 1)] }

/-- Sample job whose folder provisioning raises, for the C7 witness. -/
def conflictJob : FileJob :=
  { name := "x.pdf"
  , folderOutcome := .error (.fileExistsError "Desktop/Documents")
  , moveOutcome := (false, none) }

/-- Sample moved job for the C10 witness. -/
def movedJob : FileJob :=
  { name := "a.txt", folderOutcome := .ok "Desktop/Documents", moveOutcome := (true, none) }

/-- Numeric value of a decimal digit character. -/
def digitVal (c : Char) : Nat := c.toNat - '0'.toNat

/-- Value of a decimal digit string (most significant digit first). -/
def valOfDigits (l : List Char) : Nat :=
  l.foldl (fun a c => 10 * a + digitVal c) 0

/-! ### Lemmas about `dictIncr` and the per-file loop -/

theorem sumValues_dictIncr (counts : List (String × Nat)) (category : String) :
    sumValues (dictIncr counts category) = sumValues counts + 1 := by
  induction counts with
  | nil => simp [dictIncr, sumValues]
  | cons kv rest ih =>
    obtain ⟨k, v⟩ := kv
    by_cases h : k = category <;> simp [dictIncr, h, sumValues] at ih ⊢ <;> omega

theorem sumValues_foldl_dictIncr (cats : List String) :
    ∀ counts : List (String × Nat),
      sumValues (cats.foldl dictIncr counts) = sumValues counts + cats.length := by
  induction cats with
  | nil => intro counts; simp
  | cons c rest ih =>
    intro counts
    simp only [List.foldl_cons, ih (dictIncr counts c), sumValues_dictIncr, List.length_cons]
    omega

theorem mem_dictIncr (counts : List (String × Nat)) (category : String) (k : String) (v : Nat) :
    (k, v) ∈ dictIncr counts category →
      (∃ v', (k, v') ∈ counts) ∨ k = category := by
  induction counts with
  | nil =>
    intro h
    simp only [dictIncr, List.mem_singleton, Prod.mk.injEq] at h
    exact Or.inr h.1
  | cons kv rest ih =>
    obtain ⟨k', v'⟩ := kv
    intro h
    by_cases hk : k' = category
    · rw [dictIncr, if_pos hk] at h
      rcases List.mem_cons.mp h with heq | hmem
      · simp only [Prod.mk.injEq] at heq
        exact Or.inr (heq.1.trans hk)
      · exact Or.inl ⟨v, List.mem_cons_of_mem _ hmem⟩
    · rw [dictIncr, if_neg hk] at h
      rcases List.mem_cons.mp h with heq | hmem
      · simp only [Prod.mk.injEq] at heq
        exact Or.inl ⟨v', by rw [heq.1]; exact List.mem_cons_self _ _⟩
      · rcases ih hmem with ⟨v'', h''⟩ | hcat
        · exact Or.inl ⟨v'', List.mem_cons_of_mem _ h''⟩
        · exact Or.inr hcat

theorem dictIncr_pos (counts : List (String × Nat)) (category : String)
    (h : ∀ kv ∈ counts, 1 ≤ kv.2) :
    ∀ kv ∈ dictIncr counts category, 1 ≤ kv.2 := by
  induction counts with
  | nil => simp [dictIncr]
  | cons kv' rest ih =>
    obtain ⟨k', v'⟩ := kv'
    by_cases hk : k' = category
    · simp only [dictIncr, if_pos hk, List.mem_cons]
      rintro kv (rfl | hmem)
      · simp
      · exact h kv (List.mem_cons_of_mem _ hmem)
    · simp only [dictIncr, if_neg hk, List.mem_cons]
      rintro kv (rfl | hmem)
      · exact h (k', v') (List.mem_cons_self _ _)
      · exact ih (fun x hx => h x (List.mem_cons_of_mem _ hx)) kv hmem

theorem foldl_dictIncr_pos (cats : List String) :
    ∀ counts : List (String × Nat), (∀ kv ∈ counts, 1 ≤ kv.2) →
      ∀ kv ∈ cats.foldl dictIncr counts, 1 ≤ kv.2 := by
  induction cats with
  | nil => intro counts h; simpa using h
  | cons c rest ih =>
    intro counts h
    exact ih (dictIncr counts c) (dictIncr_pos counts c h)

theorem mem_foldl_dictIncr (cats : List String) :
    ∀ (counts : List (String × Nat)) (k : String) (v : Nat),
      (k, v) ∈ cats.foldl dictIncr counts →
        (∃ v', (k, v') ∈ counts) ∨ k ∈ cats := by
  induction cats with
  | nil => intro counts k v h; exact Or.inl ⟨v, by simpa using h⟩
  | cons c rest ih =>
    intro counts k v h
    rcases ih (dictIncr counts c) k v (by simpa using h) with ⟨v', hv'⟩ | hk
    · rcases mem_dictIncr counts c k v' hv' with hv'' | rfl
      · exact Or.inl hv''
      · exact Or.inr (List.mem_cons_self _ _)
    · exact Or.inr (List.mem_cons_of_mem _ hk)

namespace DesktopOrganizer

theorem processFile_moved (stats : OrganizationStats) (job : FileJob)
    (h : jobMoved job = true) :
    processFile stats job =
      { stats with
          files_moved := stats.files_moved + 1
          category_counts :=
            dictIncr stats.category_counts (FileCategorizer.categorize_file job.name) } := by
  obtain ⟨name, fo, b, m⟩ := job
  cases fo <;> cases b <;> simp_all [processFile, jobMoved]

theorem processFile_failed (stats : OrganizationStats) (job : FileJob)
    (h : jobMoved job = false) :
    processFile stats job = { stats with files_failed := stats.files_failed + 1 } := by
  obtain ⟨name, fo, b, m⟩ := job
  cases fo <;> cases b <;> simp_all [processFile, jobMoved]

theorem foldl_processFile_total (jobs : List FileJob) :
    ∀ init : OrganizationStats,
      (jobs.foldl processFile init).total_files = init.total_files := by
  induction jobs with
  | nil => intro init; rfl
  | cons job rest ih =>
    intro init
    rw [List.foldl_cons, ih (processFile init job)]
    by_cases h : jobMoved job = true
    · rw [processFile_moved init job h]
    · rw [processFile_failed init job (Bool.eq_false_iff.mpr h)]

theorem foldl_processFile_moved (jobs : List FileJob) :
    ∀ init : OrganizationStats,
      (jobs.foldl processFile init).files_moved =
        init.files_moved + (jobs.filter (fun j => jobMoved j)).length := by
  induction jobs with
  | nil => intro init; rfl
  | cons job rest ih =>
    intro init
    rw [List.foldl_cons, ih (processFile init job)]
    by_cases h : jobMoved job = true
    · rw [processFile_moved init job h]
      simp [List.filter_cons, h]
      omega
    · rw [processFile_failed init job (Bool.eq_false_iff.mpr h)]
      simp [List.filter_cons, h]

theorem foldl_processFile_failed (jobs : List FileJob) :
    ∀ init : OrganizationStats,
      (jobs.foldl processFile init).files_failed =
        init.files_failed + (jobs.filter (fun j => ! jobMoved j)).length := by
  induction jobs with
  | nil => intro init; rfl
  | cons job rest ih =>
    intro init
    rw [List.foldl_cons, ih (processFile init job)]
    by_cases h : jobMoved job = true
    · rw [processFile_moved init job h]
      simp [List.filter_cons, h]
    · rw [processFile_failed init job (Bool.eq_false_iff.mpr h)]
      simp [List.filter_cons, Bool.eq_false_iff.mpr h]
      omega

theorem foldl_processFile_counts (jobs : List FileJob) :
    ∀ init : OrganizationStats,
      (jobs.foldl processFile init).category_counts =
        ((jobs.filter (fun j => jobMoved j)).map
          (fun j => FileCategorizer.categorize_file j.name)).foldl
            dictIncr init.category_counts := by
  induction jobs with
  | nil => intro init; rfl
  | cons job rest ih =>
    intro init
    rw [List.foldl_cons, ih (processFile init job)]
    by_cases h : jobMoved job = true
    · rw [processFile_moved init job h]
      simp [List.filter_cons, h]
    · rw [processFile_failed init job (Bool.eq_false_iff.mpr h)]
      simp [List.filter_cons, h]

theorem orgStats_total (jobs : List FileJob) :
    (orgStats jobs).total_files = jobs.length :=
  foldl_processFile_total jobs _

theorem orgStats_moved (jobs : List FileJob) :
    (orgStats jobs).files_moved = (jobs.filter (fun j => jobMoved j)).length := by
  rw [orgStats, foldl_processFile_moved]
  simp

theorem orgStats_failed (jobs : List FileJob) :
    (orgStats jobs).files_failed = (jobs.filter (fun j => ! jobMoved j)).length := by
  rw [orgStats, foldl_processFile_failed]
  simp

theorem orgStats_counts (jobs : List FileJob) :
    (orgStats jobs).category_counts =
      ((jobs.filter (fun j => jobMoved j)).map
        (fun j => FileCategorizer.categorize_file j.name)).foldl dictIncr [] := by
  rw [orgStats, foldl_processFile_counts]

end DesktopOrganizer


theorem length_filter_add_length_filter_not {α : Type} (l : List α) (p : α → Bool) :
    (l.filter p).length + (l.filter (fun a => ! p a)).length = l.length := by
  induction l with
  | nil => rfl
  | cons x xs ih =>
    by_cases h : p x = true <;>
      simp only [List.filter_cons, h, Bool.not_true, Bool.not_false, if_pos, if_neg,
        Bool.false_eq_true, not_false_eq_true, List.length_cons] <;> omega

/-- C2: for every run that completes (the scan succeeded and `organize`
returned statistics), `files_moved + files_failed = total_files` and the sum of
the `category_counts` values equals `files_moved`. -/
theorem claim_C2 (exists_ : Bool) (iterdir : Except PyExc (List (String × Bool)))
    (env : String → Except PyExc String × (Bool × Option String))
    (s : OrganizationStats)
    (h : DesktopOrganizer.organize exists_ iterdir env = .ok s) :
    s.files_moved + s.files_failed = s.total_files
    ∧ sumValues s.category_counts = s.files_moved := by
  unfold DesktopOrganizer.organize at h
  cases hscan : FileScanner.scan_files exists_ iterdir with
  | error e => rw [hscan] at h; cases h
  | ok files =>
    rw [hscan] at h
    simp only [Except.ok.injEq] at h
    subst h
    constructor
    · rw [DesktopOrganizer.orgStats_total, DesktopOrganizer.orgStats_moved,
        DesktopOrganizer.orgStats_failed]
      exact length_filter_add_length_filter_not _ _
    · rw [DesktopOrganizer.orgStats_counts, DesktopOrganizer.orgStats_moved,
        sumValues_foldl_dictIncr]
      simp [sumValues]

/-- Witness for C2: the sample one-file run. -/
theorem claim_C2_witness :
    sampleStats.files_moved + sampleStats.files_failed = sampleStats.total_files
    ∧ sumValues sampleStats.category_counts = sampleStats.files_moved :=
  claim_C2 true (.ok [("a.txt", true), ("sub", false)]) envAllOk sampleStats rfl

/-- C4: a scan of a non-existent target fails with `FileNotFoundError`; any
scan-time failure propagates out of `organize` unchanged (no statistics are
produced); and once the scan succeeds `organize` always returns statistics, so
scan failure is the only failure mode that aborts the run. -/
theorem claim_C4 :
    (∀ iterdir, FileScanner.scan_files false iterdir =
        .error (.fileNotFoundError "Desktop path does not exist"))
    ∧ (∀ iterdir env, DesktopOrganizer.organize false iterdir env =
        .error (.fileNotFoundError "Desktop path does not exist"))
    ∧ (∀ e env, DesktopOrganizer.organize true (.error e) env = .error e)
    ∧ (∀ items env, ∃ s, DesktopOrganizer.organize true (.ok items) env = .ok s) := by
  refine ⟨fun iterdir => rfl, fun iterdir env => rfl, fun e env => rfl,
    fun items env => ⟨_, rfl⟩⟩

/-- C7: a category path occupied by a non-directory makes
`create_category_folder` fail with `FileExistsError` (the spec's
`PathConflict`), and a file whose folder provisioning raises is counted as
failed while the rest of the run is unaffected (same moved count, same
category counts, one extra failure). -/
theorem claim_C7 :
    (∀ (fs : String → PathState) (base category : String),
        fs (base ++ "/" ++ category) = PathState.file →
        FolderManager.create_category_folder fs base category =
          .error (.fileExistsError (base ++ "/" ++ category)))
    ∧ (∀ (pre post : List FileJob) (j : FileJob) (e : PyExc),
        j.folderOutcome = .error e →
        (DesktopOrganizer.orgStats (pre ++ j :: post)).files_failed
            = (DesktopOrganizer.orgStats (pre ++ post)).files_failed + 1
        ∧ (DesktopOrganizer.orgStats (pre ++ j :: post)).files_moved
            = (DesktopOrganizer.orgStats (pre ++ post)).files_moved
        ∧ (DesktopOrganizer.orgStats (pre ++ j :: post)).total_files
            = (DesktopOrganizer.orgStats (pre ++ post)).total_files + 1
        ∧ (DesktopOrganizer.orgStats (pre ++ j :: post)).category_counts
            = (DesktopOrganizer.orgStats (pre ++ post)).category_counts) := by
  constructor
  · intro fs base category h
    simp only [FolderManager.create_category_folder]
    rw [h]
  · intro pre post j e h
    have hm : DesktopOrganizer.jobMoved j = false := by
      unfold DesktopOrganizer.jobMoved
      rw [h]
    refine ⟨?_, ?_, ?_, ?_⟩
    · rw [DesktopOrganizer.orgStats_failed, DesktopOrganizer.orgStats_failed]
      simp [List.filter_append, List.filter_cons, hm]
      omega
    · rw [DesktopOrganizer.orgStats_moved, DesktopOrganizer.orgStats_moved]
      simp [List.filter_append, List.filter_cons, hm]
    · rw [DesktopOrganizer.orgStats_total, DesktopOrganizer.orgStats_total]
      simp
      omega
    · rw [DesktopOrganizer.orgStats_counts, DesktopOrganizer.orgStats_counts]
      simp [List.filter_append, List.filter_cons, hm]

/-- Witness for C7: a root where `Desktop/Images` exists as a file, and a
one-file run whose only file hits a provisioning error. -/
theorem claim_C7_witness :
    FolderManager.create_category_folder (fun _ => PathState.file) "Desktop" "Images" =
      .error (.fileExistsError ("Desktop" ++ "/" ++ "Images"))
    ∧ (DesktopOrganizer.orgStats ([] ++ conflictJob :: [])).files_failed
        = (DesktopOrganizer.orgStats ([] ++ [])).files_failed + 1 :=
  ⟨claim_C7.1 (fun _ => PathState.file) "Desktop" "Images" rfl,
   (claim_C7.2 [] [] conflictJob (.fileExistsError "Desktop/Documents") rfl).1⟩

/-- C8: folder provisioning is idempotent: a successful call returns the path
`root/category`, and calling again in the resulting state succeeds with the
same path and leaves the state unchanged. -/
theorem claim_C8 (fs : String → PathState) (base category p : String)
    (fs' : String → PathState)
    (h : FolderManager.create_category_folder fs base category = .ok (p, fs')) :
    p = base ++ "/" ++ category
    ∧ FolderManager.create_category_folder fs' base category = .ok (p, fs') := by
  simp only [FolderManager.create_category_folder] at h ⊢
  cases hfs : fs (base ++ "/" ++ category) with
  | absent =>
    rw [hfs] at h
    simp only [Except.ok.injEq, Prod.mk.injEq] at h
    obtain ⟨hp, hf⟩ := h
    subst hp
    subst hf
    simp
  | file => rw [hfs] at h; cases h
  | dir =>
    rw [hfs] at h
    simp only [Except.ok.injEq, Prod.mk.injEq] at h
    obtain ⟨hp, hf⟩ := h
    subst hp
    subst hf
    rw [hfs]
    exact ⟨rfl, rfl⟩

/-- Witness for C8: provisioning `Desktop/Images` in an empty filesystem. -/
theorem claim_C8_witness :
    "Desktop/Images" = "Desktop" ++ "/" ++ "Images"
    ∧ FolderManager.create_category_folder
        (fun q => if q = "Desktop/Images" then PathState.dir else PathState.absent)
        "Desktop" "Images" =
      .ok ("Desktop/Images",
        fun q => if q = "Desktop/Images" then PathState.dir else PathState.absent) :=
  claim_C8 (fun _ => PathState.absent) "Desktop" "Images" "Desktop/Images"
    (fun q => if q = "Desktop/Images" then PathState.dir else PathState.absent) rfl

/-- C10: every key of `category_counts` has value at least 1 and is the
category of at least one successfully moved file, and a category into which no
file was moved never appears as a key. -/
theorem claim_C10 (jobs : List FileJob) (k : String) (v : Nat) :
    ((k, v) ∈ (DesktopOrganizer.orgStats jobs).category_counts →
      1 ≤ v ∧ ∃ j ∈ jobs, DesktopOrganizer.jobMoved j = true
        ∧ FileCategorizer.categorize_file j.name = k)
    ∧ ((∀ j ∈ jobs, DesktopOrganizer.jobMoved j = true →
          FileCategorizer.categorize_file j.name ≠ k) →
        (k, v) ∉ (DesktopOrganizer.orgStats jobs).category_counts) := by
  rw [DesktopOrganizer.orgStats_counts]
  constructor
  · intro hmem
    constructor
    · exact foldl_dictIncr_pos _ [] (by simp) (k, v) hmem
    · rcases mem_foldl_dictIncr _ [] k v hmem with ⟨v', hv'⟩ | hk
      · cases hv'
      · rcases List.mem_map.mp hk with ⟨j, hj, hcat⟩
        rcases List.mem_filter.mp hj with ⟨hjin, hjm⟩
        exact ⟨j, hjin, hjm, hcat⟩
  · intro hnone hmem
    rcases mem_foldl_dictIncr _ [] k v hmem with ⟨v', hv'⟩ | hk
    · cases hv'
    · rcases List.mem_map.mp hk with ⟨j, hj, hcat⟩
      rcases List.mem_filter.mp hj with ⟨hjin, hjm⟩
      exact hnone j hjin hjm hcat

/-- Witness for C10: the one moved `a.txt` yields the `Documents` entry. -/
theorem claim_C10_witness :
    1 ≤ 1 ∧ ∃ j ∈ [movedJob], DesktopOrganizer.jobMoved j = true
      ∧ FileCategorizer.categorize_file j.name = "Documents" :=
  (claim_C10 [movedJob] "Documents" 1).1 (by decide)

/-! ### Correctness of decimal numerals (`Nat.repr`), for conflict resolution -/

theorem toDigitsCore_acc (b : Nat) :
    ∀ (fuel n : Nat) (ds : List Char),
      Nat.toDigitsCore b fuel n ds = Nat.toDigitsCore b fuel n [] ++ ds := by
  intro fuel
  induction fuel with
  | zero => intro n ds; rfl
  | succ fuel ih =>
    intro n ds
    simp only [Nat.toDigitsCore]
    by_cases h : n / b = 0
    · simp [h]
    · simp only [h, if_false]
      rw [ih (n / b) (Nat.digitChar (n % b) :: ds), ih (n / b) [Nat.digitChar (n % b)]]
      simp

theorem toDigitsCore_fuel (b : Nat) (hb : 2 ≤ b) :
    ∀ n f g, n < f → n < g →
      Nat.toDigitsCore b f n [] = Nat.toDigitsCore b g n [] := by
  intro n
  induction n using Nat.strong_induction_on with
  | _ n ih =>
    intro f g hf hg
    match f, g with
    | f + 1, g + 1 =>
      simp only [Nat.toDigitsCore]
      by_cases h : n / b = 0
      · simp [h]
      · simp only [h, if_false]
        have hn : 0 < n := by
          rcases Nat.eq_zero_or_pos n with rfl | hp
          · simp [Nat.zero_div] at h
          · exact hp
        have hdiv : n / b < n := Nat.div_lt_self hn (by omega)
        rw [toDigitsCore_acc b f, toDigitsCore_acc b g,
          ih (n / b) hdiv f g (by omega) (by omega)]

theorem digitVal_digitChar (m : Nat) (h : m < 10) :
    digitVal (Nat.digitChar m) = m := by
  interval_cases m <;> decide

theorem valOfDigits_append (l : List Char) (c : Char) :
    valOfDigits (l ++ [c]) = 10 * valOfDigits l + digitVal c := by
  simp [valOfDigits, List.foldl_append]

theorem valOfDigits_toDigits (n : Nat) :
    valOfDigits (Nat.toDigits 10 n) = n := by
  induction n using Nat.strong_induction_on with
  | _ n ih =>
    rw [Nat.toDigits]
    simp only [Nat.toDigitsCore]
    by_cases h : n / 10 = 0
    · have hn : n < 10 := by omega
      simp only [h, if_true]
      have : valOfDigits [Nat.digitChar (n % 10)] = digitVal (Nat.digitChar (n % 10)) := by
        simp [valOfDigits]
      rw [this, digitVal_digitChar _ (Nat.mod_lt _ (by omega)), Nat.mod_eq_of_lt hn]
    · simp only [h, if_false]
      have hn : 0 < n := by
        rcases Nat.eq_zero_or_pos n with rfl | hp
        · simp [Nat.zero_div] at h
        · exact hp
      have hdiv : n / 10 < n := Nat.div_lt_self hn (by omega)
      rw [toDigitsCore_acc 10 n,
        toDigitsCore_fuel 10 (by omega) (n / 10) n (n / 10 + 1) (by omega) (by omega)]
      rw [← Nat.toDigits, valOfDigits_append, ih (n / 10) hdiv,
        digitVal_digitChar _ (Nat.mod_lt _ (by omega))]
      omega

theorem reprInjective : Function.Injective Nat.repr := by
  intro a b h
  have hd : Nat.toDigits 10 a = Nat.toDigits 10 b := by
    rw [Nat.repr, Nat.repr] at h
    exact List.asString_inj.mp h
  have := congrArg valOfDigits hd
  rwa [valOfDigits_toDigits, valOfDigits_toDigits] at this

namespace FileMover

theorem candidateName_injective (stem suffix : String) :
    Function.Injective (candidateName stem suffix) := by
  intro i j h
  apply reprInjective
  have hd := congrArg String.data h
  simp only [candidateName, String.data_append] at hd
  exact String.ext (List.append_cancel_left (List.append_cancel_right hd))

theorem existsFreeCandidate (occupied : List String) (stem suffix : String) (k : Nat) :
    ∃ m, k ≤ m ∧ m < k + occupied.length + 1 ∧ candidateName stem suffix m ∉ occupied := by
  by_contra hall
  push_neg at hall
  have hnodup :
      ((List.range (occupied.length + 1)).map (fun i => candidateName stem suffix (k + i))).Nodup := by
    refine List.Nodup.map ?_ (List.nodup_range _)
    intro i j hij
    have := candidateName_injective stem suffix hij
    omega
  have hsub : ∀ x ∈ (List.range (occupied.length + 1)).map
      (fun i => candidateName stem suffix (k + i)), x ∈ occupied := by
    intro x hx
    rcases List.mem_map.mp hx with ⟨i, hi, rfl⟩
    have hi' := List.mem_range.mp hi
    exact hall (k + i) (by omega) (by omega)
  have hcard :
      ((List.range (occupied.length + 1)).map
        (fun i => candidateName stem suffix (k + i))).toFinset.card ≤
        occupied.toFinset.card := by
    apply Finset.card_le_card
    intro x hx
    rw [List.mem_toFinset] at hx ⊢
    exact hsub x hx
  rw [List.toFinset_card_of_nodup hnodup] at hcard
  have hocc := List.toFinset_card_le occupied
  simp only [List.length_map, List.length_range] at hcard
  omega

theorem resolveAux_spec (occupied : List String) (stem suffix : String) :
    ∀ fuel counter : Nat,
      (∃ m, counter ≤ m ∧ m < counter + fuel ∧ candidateName stem suffix m ∉ occupied) →
      ∃ m, counter ≤ m
        ∧ resolveAux occupied stem suffix fuel counter = some (candidateName stem suffix m)
        ∧ candidateName stem suffix m ∉ occupied
        ∧ ∀ j, counter ≤ j → j < m → candidateName stem suffix j ∈ occupied := by
  intro fuel
  induction fuel with
  | zero =>
    rintro counter ⟨m, h1, h2, -⟩
    omega
  | succ fuel ih =>
    rintro counter ⟨m, h1, h2, h3⟩
    by_cases hc : candidateName stem suffix counter ∈ occupied
    · have hm : counter ≠ m := by
        rintro rfl
        exact h3 hc
      obtain ⟨m', hm'1, hm'2, hm'3, hm'4⟩ :=
        ih (counter + 1) ⟨m, by omega, by omega, h3⟩
      refine ⟨m', by omega, ?_, hm'3, ?_⟩
      · simp only [resolveAux, if_pos hc]
        exact hm'2
      · intro j hj1 hj2
        rcases Nat.eq_or_lt_of_le hj1 with rfl | hlt
        · exact hc
        · exact hm'4 j (by omega) hj2
    · refine ⟨counter, Nat.le_refl _, ?_, hc, ?_⟩
      · simp [resolveAux, hc]
      · intro j hj1 hj2
        omega

/-- Total-correctness of `_resolve_name_conflict`: it always returns the
candidate with the least unused counter, starting at 1. -/
theorem resolve_some (occupied : List String) (destName : String) :
    ∃ m, 1 ≤ m
      ∧ resolve_name_conflict occupied destName =
          some (candidateName (pyStem destName) (pySuffix destName) m)
      ∧ candidateName (pyStem destName) (pySuffix destName) m ∉ occupied
      ∧ ∀ j, 1 ≤ j → j < m →
          candidateName (pyStem destName) (pySuffix destName) j ∈ occupied := by
  unfold resolve_name_conflict
  refine resolveAux_spec occupied _ _ (occupied.length + 1) 1 ?_
  obtain ⟨m, h1, h2, h3⟩ := existsFreeCandidate occupied (pyStem destName) (pySuffix destName) 1
  exact ⟨m, h1, by omega, h3⟩

end FileMover

/-- C3: when the natural destination name is occupied, the mover picks
`stem_k.suffix` for the least unused positive counter `k`, preserving the
extension; in particular `report.pdf` resolves to `report_1.pdf`, and next to
`report_2.pdf`. -/
theorem claim_C3 :
    (∀ (occupied : List String) (name : String), name ∈ occupied →
      ∃ k, 1 ≤ k
        ∧ FileMover.resolve_name_conflict occupied name =
            some (pyStem name ++ "_" ++ Nat.repr k ++ pySuffix name)
        ∧ (pyStem name ++ "_" ++ Nat.repr k ++ pySuffix name) ∉ occupied
        ∧ (∀ j, 1 ≤ j → j < k →
            (pyStem name ++ "_" ++ Nat.repr j ++ pySuffix name) ∈ occupied))
    ∧ FileMover.resolve_name_conflict ["report.pdf"] "report.pdf" = some "report_1.pdf"
    ∧ FileMover.resolve_name_conflict ["report.pdf", "report_1.pdf"] "report.pdf"
        = some "report_2.pdf" := by
  refine ⟨?_, by decide, by decide⟩
  intro occupied name _
  exact FileMover.resolve_some occupied name

/-- Witness for C3: the `report.pdf` collision. -/
theorem claim_C3_witness :
    ∃ k, 1 ≤ k
      ∧ FileMover.resolve_name_conflict ["report.pdf"] "report.pdf" =
          some (pyStem "report.pdf" ++ "_" ++ Nat.repr k ++ pySuffix "report.pdf")
      ∧ (pyStem "report.pdf" ++ "_" ++ Nat.repr k ++ pySuffix "report.pdf") ∉ ["report.pdf"]
      ∧ (∀ j, 1 ≤ j → j < k →
          (pyStem "report.pdf" ++ "_" ++ Nat.repr j ++ pySuffix "report.pdf") ∈ ["report.pdf"]) :=
  claim_C3.1 ["report.pdf"] "report.pdf" (by decide)

/-- C5: every scanned file ends in exactly one of moved / failed (the two
filter counts partition the scan), a per-file failure never aborts the run
(`organize` still returns statistics), and `move_file` returns failures in its
result instead of raising, with the success path returning `(True, None)`. -/
theorem claim_C5 :
    (∀ jobs : List FileJob,
        (DesktopOrganizer.orgStats jobs).files_moved =
            (jobs.filter (fun j => DesktopOrganizer.jobMoved j)).length
        ∧ (DesktopOrganizer.orgStats jobs).files_failed =
            (jobs.filter (fun j => ! DesktopOrganizer.jobMoved j)).length
        ∧ (jobs.filter (fun j => DesktopOrganizer.jobMoved j)).length
            + (jobs.filter (fun j => ! DesktopOrganizer.jobMoved j)).length = jobs.length)
    ∧ (∀ items env, ∃ s, DesktopOrganizer.organize true (.ok items) env = .ok s)
    ∧ (∀ (occupied : List String) (name : String) (e : PyExc),
        FileMover.move_file occupied name (some e)
          = (false, some (FileMover.moveErrorMessage e)))
    ∧ (∀ (occupied : List String) (name : String),
        FileMover.move_file occupied name none = (true, none)) := by
  refine ⟨?_, fun items env => ⟨_, rfl⟩, ?_, ?_⟩
  · intro jobs
    exact ⟨DesktopOrganizer.orgStats_moved jobs, DesktopOrganizer.orgStats_failed jobs,
      length_filter_add_length_filter_not _ _⟩
  · intro occupied name e
    unfold FileMover.move_file
    by_cases h : name ∈ occupied
    · obtain ⟨m, -, h2, -, -⟩ := FileMover.resolve_some occupied name
      simp [h, h2]
    · simp [h]
  · intro occupied name
    unfold FileMover.move_file
    by_cases h : name ∈ occupied
    · obtain ⟨m, -, h2, -, -⟩ := FileMover.resolve_some occupied name
      simp [h, h2]
    · simp [h]

/-! ### Categorizer lemmas, C1 and C6 -/

theorem rfindIdx_none (l : List Char) (c : Char) (h : c ∉ l) :
    rfindIdx l c = none := by
  induction l with
  | nil => rfl
  | cons x xs ih =>
    have hx : ¬x = c := fun hxc => h (hxc ▸ List.mem_cons_self x xs)
    have hxs : c ∉ xs := fun hmem => h (List.mem_cons_of_mem x hmem)
    simp [rfindIdx, ih hxs, hx]

theorem rfindIdx_append (l₁ l₂ : List Char) (c : Char) :
    rfindIdx (l₁ ++ l₂) c =
      match rfindIdx l₂ c with
      | some i => some (l₁.length + i)
      | none => rfindIdx l₁ c := by
  induction l₁ with
  | nil =>
    cases h : rfindIdx l₂ c <;> simp [h, rfindIdx]
  | cons x xs ih =>
    cases h : rfindIdx l₂ c with
    | some i =>
      simp only [h] at ih
      simp [rfindIdx, List.append_eq, ih, h, Nat.add_assoc, Nat.add_comm 1 i]
    | none =>
      simp only [h] at ih
      simp only [List.cons_append, rfindIdx, List.append_eq, ih, h]

theorem findCategory_eq_specFirstCategory (e : String) :
    FileCategorizer.findCategory FileCategorizer.CATEGORIES e = specFirstCategory e := by
  rw [specFirstCategory]
  generalize FileCategorizer.CATEGORIES = table
  induction table with
  | nil => rfl
  | cons p rest ih =>
    obtain ⟨category, extensions⟩ := p
    by_cases h : e ∈ extensions <;>
      simp [FileCategorizer.findCategory, List.find?, h, ih]

theorem categorize_file_no_dot (name : String) (h : ('.' : Char) ∉ name.data) :
    FileCategorizer.categorize_file name = "Miscellaneous" := by
  have hsuffix : pySuffix name = "" := by
    rw [pySuffix, rfindIdx_none name.data '.' h]
  simp only [FileCategorizer.categorize_file, hsuffix]
  decide

theorem categorize_file_trailing_dot (base : String) :
    FileCategorizer.categorize_file (base ++ ".") = "Miscellaneous" := by
  have hdata : (base ++ ".").data = base.data ++ ['.'] := by
    rw [String.data_append]
  have hidx : rfindIdx (base ++ ".").data '.' = some base.data.length := by
    rw [hdata, rfindIdx_append]
    rfl
  have hlen : ¬(0 < base.data.length ∧
      base.data.length < (base ++ ".").data.length - 1) := by
    rw [hdata, List.length_append]
    simp only [List.length_cons, List.length_nil]
    omega
  have hsuffix : pySuffix (base ++ ".") = "" := by
    rw [pySuffix, hidx]
    exact if_neg hlen
  simp only [FileCategorizer.categorize_file, hsuffix]
  decide

theorem categorize_file_leading_dot (ext : String) (h : ('.' : Char) ∉ ext.data) :
    FileCategorizer.categorize_file ("." ++ ext) = "Miscellaneous" := by
  have hdata : ("." ++ ext).data = '.' :: ext.data := by
    rw [String.data_append]
    rfl
  have hidx : rfindIdx ("." ++ ext).data '.' = some 0 := by
    rw [hdata]
    simp [rfindIdx, rfindIdx_none ext.data '.' h]
  have hsuffix : pySuffix ("." ++ ext) = "" := by
    rw [pySuffix, hidx]
    exact if_neg (by simp)
  simp only [FileCategorizer.categorize_file, hsuffix]
  decide

theorem categorize_file_last_dot (base ext : String) (h : ('.' : Char) ∉ ext.data)
    (hbase : base.data ≠ []) (hext : ext.data ≠ []) :
    FileCategorizer.categorize_file (base ++ "." ++ ext) =
      specFirstCategory (pyLower ("." ++ ext)) := by
  have hdata : (base ++ "." ++ ext).data = base.data ++ ('.' :: ext.data) := by
    rw [String.data_append, String.data_append, List.append_assoc]
    rfl
  have hidx : rfindIdx (base ++ "." ++ ext).data '.' = some base.data.length := by
    rw [hdata, rfindIdx_append]
    have h1 : rfindIdx ('.' :: ext.data) '.' = some 0 := by
      simp [rfindIdx, rfindIdx_none ext.data '.' h]
    rw [h1]
    rfl
  have hcond : 0 < base.data.length ∧
      base.data.length < (base ++ "." ++ ext).data.length - 1 := by
    constructor
    · exact List.length_pos.mpr hbase
    · rw [hdata, List.length_append]
      have he := List.length_pos.mpr hext
      simp only [List.length_cons]
      omega
  have hsuffix : pySuffix (base ++ "." ++ ext) = "." ++ ext := by
    rw [pySuffix, hidx]
    have hthen :
        (if 0 < base.data.length ∧
            base.data.length < (base ++ "." ++ ext).data.length - 1 then
          (⟨(base ++ "." ++ ext).data.drop base.data.length⟩ : String) else "") = "." ++ ext := by
      rw [if_pos hcond, hdata, List.drop_left]
      apply String.ext
      rw [String.data_append]
      rfl
    exact hthen
  have hne : pyLower ("." ++ ext) ≠ "" := by
    intro heq
    have := congrArg String.data heq
    simp [pyLower, String.data_append] at this
  simp only [FileCategorizer.categorize_file, hsuffix]
  rw [if_neg hne, findCategory_eq_specFirstCategory]

/-- C1 (corrected): the extension is the lowercased substring from the last
`.` onward, except that a `.` which is the name's first character or which has
no characters after it does not start an extension; the empty extension gives
`Miscellaneous` and otherwise the first table category containing the
extension wins, with `Miscellaneous` as fallback.  In particular `.py` has an
empty extension and is categorized `Miscellaneous`. -/
theorem claim_C1_amended :
    (∀ base ext : String, ('.' : Char) ∉ ext.data → base.data ≠ [] → ext.data ≠ [] →
        FileCategorizer.categorize_file (base ++ "." ++ ext) =
          specFirstCategory (pyLower ("." ++ ext)))
    ∧ (∀ name : String, ('.' : Char) ∉ name.data →
        FileCategorizer.categorize_file name = "Miscellaneous")
    ∧ (∀ base : String, FileCategorizer.categorize_file (base ++ ".") = "Miscellaneous")
    ∧ (∀ ext : String, ('.' : Char) ∉ ext.data →
        FileCategorizer.categorize_file ("." ++ ext) = "Miscellaneous")
    ∧ FileCategorizer.categorize_file ".py" = "Miscellaneous" :=
  ⟨categorize_file_last_dot, categorize_file_no_dot, categorize_file_trailing_dot,
    categorize_file_leading_dot, by decide⟩

/-- Witness for the amended C1. -/
theorem claim_C1_amended_witness :
    FileCategorizer.categorize_file ("photo" ++ "." ++ "JPG") =
      specFirstCategory (pyLower ("." ++ "JPG"))
    ∧ FileCategorizer.categorize_file "notes" = "Miscellaneous"
    ∧ FileCategorizer.categorize_file ("." ++ "py") = "Miscellaneous" :=
  ⟨claim_C1_amended.1 "photo" "JPG" (by decide) (by decide) (by decide),
   claim_C1_amended.2.1 "notes" (by decide),
   claim_C1_amended.2.2.2.1 "py" (by decide)⟩

/-- Counterexample to C1 as stated: the claim's extension rule gives `.py` the
extension `.py` and category `Code`, but `categorize_file` (via
`Path.suffix`, which ignores a leading dot) yields `Miscellaneous`. -/
theorem claim_C1_counterexample :
    claimCategorize ".py" = "Code"
    ∧ FileCategorizer.categorize_file ".py" = "Miscellaneous"
    ∧ FileCategorizer.categorize_file ".py" ≠ claimCategorize ".py" :=
  ⟨by decide, by decide, by decide⟩

/-- C6: every table extension, in any casing of the file name, maps to its
table category (first match in table order); concretely `photo.JPG` → Images,
`notes` → Miscellaneous, `archive.tar.gz` → Archives. -/
theorem claim_C6 :
    (∀ p ∈ FileCategorizer.CATEGORIES, ∀ e ∈ p.2, ∀ name : String,
        pyLower (pySuffix name) = e → FileCategorizer.categorize_file name = p.1)
    ∧ FileCategorizer.categorize_file "photo.JPG" = "Images"
    ∧ FileCategorizer.categorize_file "notes" = "Miscellaneous"
    ∧ FileCategorizer.categorize_file "archive.tar.gz" = "Archives" := by
  refine ⟨?_, by decide, by decide, by decide⟩
  intro p hp e he name hname
  have hkey : ∀ p ∈ FileCategorizer.CATEGORIES, ∀ e ∈ p.2,
      e ≠ "" ∧ FileCategorizer.findCategory FileCategorizer.CATEGORIES e = p.1 := by decide
  obtain ⟨hne, hfind⟩ := hkey p hp e he
  rw [FileCategorizer.categorize_file]
  simp only [hname]
  rw [if_neg hne, hfind]

/-- Witness for C6: `photo.JPG` carries `.jpg` and lands in Images. -/
theorem claim_C6_witness :
    FileCategorizer.categorize_file "photo.JPG" = "Images" :=
  claim_C6.1 ("Images", [".jpg", ".jpeg", ".png", ".gif", ".bmp", ".svg", ".ico"])
    (by decide) ".jpg" (by decide) "photo.JPG" (by decide)
